import Mathlib

/-!
Verification of the EEG preprocessing pipeline in `utils.py`.

The program is glue code over an EEG signal-processing library.  We model it
with a shallow embedding:

* the pure computations of the source (`exclude_idx`, the filename
  sanitization `event_type.replace(' ', '-')`, the fixed event maps) become
  Lean functions on lists and strings;
* the straight-line bodies of `preprocess_subject` and `run_ica` become
  explicit traces (`List Step`) of the library calls they make, in source
  order, with the arguments the source passes;
* `create_evokeds` is modelled over an abstract library interface (`EEGLib`):
  its per-sub-condition loop bodies become functions returning the produced
  evoked/filename pair (or the lookup error Python's dict indexing raises),
  the list of library calls made, and the diagnostic messages printed.
-/

namespace EEGPipe

/-! ## Trace model of the library calls made by `preprocess_subject` and `run_ica` -/

/-- One call against the signal-processing library, with the arguments the
source passes.  Constructors mirror the statements of `utils.py`. -/
inductive Step where
  | readRawBids (task datatype suffix : String)
  | printRaw
  | setMontage (montageName : String)
  | resample (sfreq : ℚ) (npad : String)
  | computePsdPlot
  | computePsdPlotTopomap
  | loadData
  | filterStep (lFreq hFreq : Option ℚ) (method firDesign : String)
  | notchFilter (freqs : List ℚ) (method firDesign : String)
  | setEEGReference (refKind : String)
  | icaFit (nComponents randomState : Nat) (method : String) (extended : Bool)
  | labelComponentsStep (method : String)
  | printVariance
  | setExclude (idx : List Nat)
  | plotComponents
  | plotOverlay (exclude : List Nat)
  | icaApply (exclude : List Nat)
  deriving DecidableEq

/-- The resampling rate fixed in `preprocess_subject`: `raw.resample(250)`. -/
def resampleSfreq : ℚ := 250

/-- The ICA component count fixed in `run_ica`: `n_components=20`. -/
def nComponents : Nat := 20

/-- The sequence of library calls made by `preprocess_subject`
(`utils.py` lines 22-45), in source order. -/
def preprocessSteps : List Step :=
  [Step.readRawBids "casinos" "eeg" "eeg",
   Step.printRaw,
   Step.setMontage "easycap-M1",
   Step.resample resampleSfreq "auto",
   Step.computePsdPlot,
   Step.loadData,
   Step.filterStep (some (1/10)) (some 100) "fir" "firwin",
   Step.notchFilter [50] "fir" "firwin",
   Step.computePsdPlot,
   Step.computePsdPlotTopomap]

/-- `exclude_idx` of `run_ica` (`utils.py` lines 62-64):
the indices of the classifier labels that are neither `"brain"` nor
`"other"`. -/
def exclude_idx (labels : List String) : List Nat :=
  (labels.enum.filter (fun p => decide (p.2 ∉ (["brain", "other"] : List String)))).map
    Prod.fst

/-- The sequence of library calls made by `run_ica` (`utils.py` lines 55-98),
in source order, as a function of the per-component labels returned by the
classifier. -/
def runIcaSteps (labels : List String) : List Step :=
  [Step.setEEGReference "average",
   Step.icaFit nComponents 97 "infomax" true,
   Step.labelComponentsStep "iclabel",
   Step.printVariance,
   Step.setExclude (exclude_idx labels),
   Step.plotComponents,
   Step.plotOverlay (exclude_idx labels),
   Step.icaApply (exclude_idx labels),
   Step.filterStep (some (1/10)) (some 30) "fir" "firwin",
   Step.computePsdPlot]

/-- Whether a step mutates or replaces the in-memory signal (as opposed to a
diagnostic print/plot, an in-memory load, or an operation on the ICA object
only). -/
def signalModifying : Step → Bool
  | Step.readRawBids _ _ _ => true
  | Step.setMontage _ => true
  | Step.resample _ _ => true
  | Step.filterStep _ _ _ _ => true
  | Step.notchFilter _ _ _ => true
  | Step.setEEGReference _ => true
  | Step.icaApply _ => true
  | _ => false

/-- The argument of the first `setExclude` step of a trace
(the list assigned to `ica.exclude`). -/
def setExcludeArg : List Step → Option (List Nat)
  | [] => none
  | Step.setExclude l :: _ => some l
  | _ :: rest => setExcludeArg rest

/-- The argument of the first `icaApply` step of a trace
(the exclusion list in force when `ica.apply(raw)` reconstructs the
signal). -/
def icaApplyArg : List Step → Option (List Nat)
  | [] => none
  | Step.icaApply l :: _ => some l
  | _ :: rest => icaApplyArg rest

/-- The components selected for exclusion, as a finite set. -/
def excludedSet (labels : List String) : Finset Nat :=
  (exclude_idx labels).toFinset

/-- The components retained by the reconstruction: those of the fixed
component index set that are not excluded. -/
def retainedSet (labels : List String) : Finset Nat :=
  (Finset.range nComponents).filter (fun i => i ∉ exclude_idx labels)

/-- A concrete 20-label classifier outcome, used to instantiate theorems. -/
def labels20 : List String :=
  ["brain", "eye blink", "muscle artifact", "heart beat", "line noise",
   "channel noise", "other", "brain", "brain", "other",
   "eye blink", "brain", "muscle artifact", "brain", "other",
   "brain", "line noise", "brain", "other", "brain"]

/-! ## Filename construction of `create_evokeds` -/

/-- Character-list core of Python's `event_type.replace(' ', '-')`: every
space becomes a hyphen, every other character is kept. -/
def replaceSpaces : List Char → List Char
  | [] => []
  | c :: cs => (if c = ' ' then '-' else c) :: replaceSpaces cs

/-- The sanitized condition label: `event_type.replace(' ', '-')`. -/
def sanitizeLabel (s : String) : String :=
  String.mk (replaceSpaces s.data)

/-- The output path built by `create_evokeds`
(`utils.py` lines 155-156 and 172-173):
`f"fif-files/subject{subject_id}_feedback_{event_type.replace(' ', '-')}-ave.fif"`. -/
def evokedFilename (subject_id event_type : String) : String :=
  "fif-files/subject" ++ subject_id ++ "_feedback_" ++ sanitizeLabel event_type
    ++ "-ave.fif"

/-! ## Abstract-library model of `create_evokeds` -/

/-- The fixed epoching arguments of `mne.Epochs(...)` in `create_evokeds`. -/
structure EpochParams where
  tmin : ℚ
  tmax : ℚ
  baseline : Option ℚ × Option ℚ
  rejectEEG : ℚ
  preload : Bool
  rejectByAnnot : Bool
  deriving DecidableEq

/-- Epoching window start (`tmin = -0.2` s, `utils.py` line 113). -/
def tmin : ℚ := -(1/5)

/-- Epoching window end (`tmax = 0.6` s, `utils.py` line 113). -/
def tmax : ℚ := 3/5

/-- The blanket peak-to-peak rejection ceiling
(`reject_criteria = dict(eeg=120e-6)`, i.e. 120 µV in volts). -/
def rejectCriteria : ℚ := 120/1000000

/-- The argument bundle `create_evokeds` passes to every `mne.Epochs` call:
`tmin=-0.2, tmax=0.6, baseline=(None, 0), reject=dict(eeg=120e-6),
preload=True, reject_by_annotation=True`. -/
def epochParams : EpochParams :=
  ⟨tmin, tmax, (none, some 0), rejectCriteria, true, true⟩

/-- The signal-processing library as an abstract interface: the opaque types
it manipulates and the operations `create_evokeds` invokes on them. -/
structure EEGLib where
  Raw : Type
  Events : Type
  Epochs : Type
  Evoked : Type
  Thresh : Type
  eventsFromAnnot : Raw → Events × List (String × Nat)
  mkEpochs : Raw → Events → Nat → EpochParams → Epochs
  getRejectionThreshold : Epochs → Nat → Thresh
  showThresh : Thresh → String
  dropBad : Epochs → Thresh → Epochs
  average : Epochs → Evoked

/-- One library call made inside a sub-condition loop body, with its
arguments. -/
inductive ECall where
  | epochsCall (eventCode : Nat) (params : EpochParams)
  | thresholdCall (decim : Nat)
  | dropBadCall
  | averageCall
  | saveCall (fname : String) (overwrite : Bool)
  deriving DecidableEq

/-- Outcome of one sub-condition loop body: its produced evoked and output
filename (or the `KeyError` Python's dict indexing raises when the event
code is absent), the library calls made, and the diagnostic lines printed. -/
structure CondResult (L : EEGLib) where
  value : Except String (L.Evoked × String)
  calls : List ECall
  log : List String

/-- Python dict indexing `event_id[k]` as an optional lookup. -/
def lookupEventId (event_id : List (String × Nat)) (k : String) : Option Nat :=
  (event_id.find? (fun p => p.1 == k)).map Prod.snd

/-- The body of the win-family loop of `create_evokeds`
(`utils.py` lines 142-156), for one `(key, event_type)` pair. -/
def winBody (L : EEGLib) (raw : L.Raw) (events : L.Events)
    (event_id : List (String × Nat)) (subject_id key event_type : String) :
    CondResult L :=
  match lookupEventId event_id ("Stimulus/" ++ key) with
  | none => ⟨Except.error ("KeyError: Stimulus/" ++ key), [], []⟩
  | some code =>
      let epochs := L.mkEpochs raw events code epochParams
      let reject := L.getRejectionThreshold epochs 2
      let msg := "Win epochs rejection threshold for " ++ subject_id ++ " is "
        ++ L.showThresh reject
      let dropped := L.dropBad epochs reject
      let evoked := L.average dropped
      let fname := evokedFilename subject_id event_type
      ⟨Except.ok (evoked, fname),
       [ECall.epochsCall code epochParams, ECall.thresholdCall 2,
        ECall.dropBadCall, ECall.averageCall, ECall.saveCall fname true],
       [msg]⟩

/-- The body of the loss-family loop of `create_evokeds`
(`utils.py` lines 159-173), for one `(key, event_type)` pair. -/
def lossBody (L : EEGLib) (raw : L.Raw) (events : L.Events)
    (event_id : List (String × Nat)) (subject_id key event_type : String) :
    CondResult L :=
  match lookupEventId event_id ("Stimulus/" ++ key) with
  | none => ⟨Except.error ("KeyError: Stimulus/" ++ key), [], []⟩
  | some code =>
      let epochs := L.mkEpochs raw events code epochParams
      let reject := L.getRejectionThreshold epochs 2
      let msg := "Loss epochs rejection threshold for " ++ subject_id ++ " is "
        ++ L.showThresh reject
      let dropped := L.dropBad epochs reject
      let evoked := L.average dropped
      let fname := evokedFilename subject_id event_type
      ⟨Except.ok (evoked, fname),
       [ECall.epochsCall code epochParams, ECall.thresholdCall 2,
        ECall.dropBadCall, ECall.averageCall, ECall.saveCall fname true],
       [msg]⟩

/-- The two stimulus families. -/
inductive Family where
  | win
  | loss
  deriving DecidableEq

/-- The `win_events` map of `create_evokeds` (`utils.py` lines 117-122). -/
def win_events : List (String × String) :=
  [("S  6", "win (low-task, low-cue)"),
   ("S 16", "win (mid-task, low-cue)"),
   ("S 26", "win (mid-task, high-cue)"),
   ("S 36", "win (high-task, high-cue)")]

/-- The `loss_events` map of `create_evokeds` (`utils.py` lines 123-128). -/
def loss_events : List (String × String) :=
  [("S  7", "loss (low-task, low-cue)"),
   ("S 17", "loss (mid-task, low-cue)"),
   ("S 27", "loss (mid-task, high-cue)"),
   ("S 37", "loss (high-task, high-cue)")]

/-- The 8 sub-conditions in the order `create_evokeds` processes them:
the four win pairs, then the four loss pairs. -/
def allConds : List (Family × String × String) :=
  win_events.map (fun p => (Family.win, p.1, p.2))
    ++ loss_events.map (fun p => (Family.loss, p.1, p.2))

/-- Dispatch a sub-condition to the loop body of its family. -/
def condBody (L : EEGLib) (raw : L.Raw) (events : L.Events)
    (event_id : List (String × Nat)) (subject_id : String) :
    Family × String × String → CondResult L
  | (Family.win, key, event_type) =>
      winBody L raw events event_id subject_id key event_type
  | (Family.loss, key, event_type) =>
      lossBody L raw events event_id subject_id key event_type

/-- The `(filename, evoked)` pair a sub-condition writes, when its body
succeeds. -/
def condFile (L : EEGLib) (raw : L.Raw) (events : L.Events)
    (event_id : List (String × Nat)) (subject_id : String)
    (c : Family × String × String) : Option (String × L.Evoked) :=
  match (condBody L raw events event_id subject_id c).value with
  | Except.ok (ev, fname) => some (fname, ev)
  | Except.error _ => none

/-- Whether a sub-condition's body succeeds. -/
def condOk (L : EEGLib) (raw : L.Raw) (events : L.Events)
    (event_id : List (String × Nat)) (subject_id : String)
    (c : Family × String × String) : Bool :=
  (condFile L raw events event_id subject_id c).isSome

/-- Process a list of sub-conditions in order, as the two `for` loops of
`create_evokeds` do: each successful body appends its written
`(filename, evoked)` file; the first failing body terminates the run with
its uncaught error, so nothing after it is processed or written. -/
def runConds (L : EEGLib) (raw : L.Raw) (events : L.Events)
    (event_id : List (String × Nat)) (subject_id : String) :
    List (Family × String × String) → List (String × L.Evoked) × Option String
  | [] => ([], none)
  | c :: rest =>
      match (condBody L raw events event_id subject_id c).value with
      | Except.error e => ([], some e)
      | Except.ok (ev, fname) =>
          let r := runConds L raw events event_id subject_id rest
          ((fname, ev) :: r.1, r.2)

/-- `create_evokeds` (`utils.py` lines 103-173): derive events and the
event-id map from the signal's annotation track, then run the 8
sub-conditions in order.  Returns the files written (in order) and the
error that aborted the run, if any. -/
def create_evokeds (L : EEGLib) (raw : L.Raw) (subject_id : String) :
    List (String × L.Evoked) × Option String :=
  runConds L raw (L.eventsFromAnnot raw).1 (L.eventsFromAnnot raw).2 subject_id
    allConds

/-- A file store: the contents on disk under each path.  Writing with
`overwrite=True` is an unconditional update. -/
def writeAll {α : Type} (σ : String → Option α) (files : List (String × α)) :
    String → Option α :=
  files.foldl (fun σ p => Function.update σ p.1 (some p.2)) σ

/-- An event-id map containing all 8 stimulus codes of `create_evokeds`. -/
def fullEventId : List (String × Nat) :=
  [("Stimulus/S  6", 6), ("Stimulus/S 16", 16),
   ("Stimulus/S 26", 26), ("Stimulus/S 36", 36),
   ("Stimulus/S  7", 7), ("Stimulus/S 17", 17),
   ("Stimulus/S 27", 27), ("Stimulus/S 37", 37)]

/-- A concrete instantiation of the abstract library, used to evaluate the
model on closed inputs. -/
def unitLib : EEGLib where
  Raw := Unit
  Events := Unit
  Epochs := Unit
  Evoked := Unit
  Thresh := Unit
  eventsFromAnnot := fun _ => ((), fullEventId)
  mkEpochs := fun _ _ _ _ => ()
  getRejectionThreshold := fun _ _ => ()
  showThresh := fun _ => "0.0001"
  dropBad := fun _ _ => ()
  average := fun _ => ()

/-- Sample count of an `Epochs`/`Evoked` time axis.
Modelled from the spec: the epoch length rule of the external library's
epoching (`mne.Epochs`) is not part of this repository; the spec states the
written Evoked Average's sample count along the time axis equals
`round((tmax - tmin) * sample_rate) + 1`. -/
def nEpochSamples (a b sfreq : ℚ) : ℤ :=
  round ((b - a) * sfreq) + 1

/-! ## Helper lemmas -/

theorem mem_exclude_idx (labels : List String) (i : Nat) :
    i ∈ exclude_idx labels ↔
      ∃ lab, labels[i]? = some lab ∧ lab ∉ (["brain", "other"] : List String) := by
  simp only [exclude_idx, List.mem_map, List.mem_filter, Prod.exists]
  constructor
  · rintro ⟨j, lab, ⟨hmem, hdec⟩, rfl⟩
    exact ⟨lab, List.mk_mem_enum_iff_getElem?.mp hmem, by simpa using hdec⟩
  · rintro ⟨lab, hget, hlab⟩
    exact ⟨i, lab, ⟨List.mk_mem_enum_iff_getElem?.mpr hget, by simpa using hlab⟩, rfl⟩

theorem lt_length_of_mem_exclude_idx (labels : List String) (i : Nat)
    (hi : i ∈ exclude_idx labels) : i < labels.length := by
  rcases (mem_exclude_idx labels i).mp hi with ⟨lab, hget, -⟩
  by_contra hge
  rw [List.getElem?_eq_none (Nat.le_of_not_lt hge)] at hget
  cases hget

theorem replaceSpaces_eq_map (l : List Char) :
    replaceSpaces l = l.map (fun c => if c = ' ' then '-' else c) := by
  induction l with
  | nil => rfl
  | cons c cs ih => simp [replaceSpaces, ih]

/-! ## Claim theorems -/

/-- Claim C1: in `run_ica`, the set of component indices selected for
exclusion is exactly the set of indices whose classifier label is neither
`"brain"` nor `"other"`; the excluded and retained sets partition the fixed
component index set `{0..19}` (union is `{0..19}`, intersection empty); and
the exclusion list assigned to `ica.exclude` and in force at signal
reconstruction equals this selected list. -/
theorem run_ica_exclusion_partition (labels : List String)
    (hlen : labels.length = nComponents) :
    (∀ i (h : i < labels.length),
        (i ∈ exclude_idx labels ↔
          labels[i] ∉ (["brain", "other"] : List String))) ∧
    excludedSet labels ∪ retainedSet labels = Finset.range nComponents ∧
    excludedSet labels ∩ retainedSet labels = ∅ ∧
    setExcludeArg (runIcaSteps labels) = some (exclude_idx labels) ∧
    icaApplyArg (runIcaSteps labels) = some (exclude_idx labels) := by
  have hchar : ∀ i (h : i < labels.length),
      (i ∈ exclude_idx labels ↔
        labels[i] ∉ (["brain", "other"] : List String)) := by
    intro i h
    rw [mem_exclude_idx]
    simp [List.getElem?_eq_getElem h]
  refine ⟨hchar, ?_, ?_, rfl, rfl⟩
  · ext i
    simp only [excludedSet, retainedSet, Finset.mem_union, List.mem_toFinset,
      Finset.mem_filter, Finset.mem_range]
    constructor
    · rintro (hx | ⟨hr, -⟩)
      · exact hlen ▸ lt_length_of_mem_exclude_idx labels i hx
      · exact hr
    · intro hi
      by_cases hx : i ∈ exclude_idx labels
      · exact Or.inl hx
      · exact Or.inr ⟨hi, hx⟩
  · ext i
    simp only [excludedSet, retainedSet, Finset.mem_inter, List.mem_toFinset,
      Finset.mem_filter, Finset.not_mem_empty, iff_false, not_and]
    intro hx _
    intro hnx
    exact hnx hx

theorem run_ica_exclusion_partition_witness :
    labels20.length = nComponents ∧
    ((∀ i (h : i < labels20.length),
        (i ∈ exclude_idx labels20 ↔
          labels20[i] ∉ (["brain", "other"] : List String))) ∧
      excludedSet labels20 ∪ retainedSet labels20 = Finset.range nComponents ∧
      excludedSet labels20 ∩ retainedSet labels20 = ∅ ∧
      setExcludeArg (runIcaSteps labels20) = some (exclude_idx labels20) ∧
      icaApplyArg (runIcaSteps labels20) = some (exclude_idx labels20)) :=
  ⟨rfl, run_ica_exclusion_partition labels20 rfl⟩

/-- Claim C2: the output filename is the fixed pattern
`fif-files/subject{subject_id}_feedback_{label}-ave.fif` where the label has
every space replaced by a hyphen and no other character altered; in
particular for subject `"01"` and label `"win (low-task, low-cue)"` it is
exactly `fif-files/subject01_feedback_win-(low-task,-low-cue)-ave.fif`. -/
theorem evoked_filename_sanitization :
    (∀ subject_id event_type : String,
        evokedFilename subject_id event_type =
          "fif-files/" ++ ("subject" ++ subject_id ++ "_feedback_"
            ++ sanitizeLabel event_type ++ "-ave.fif")) ∧
    (∀ event_type : String,
        (sanitizeLabel event_type).data =
          event_type.data.map (fun c => if c = ' ' then '-' else c)) ∧
    evokedFilename "01" "win (low-task, low-cue)" =
      "fif-files/subject01_feedback_win-(low-task,-low-cue)-ave.fif" := by
  refine ⟨?_, ?_, by decide⟩
  · intro sid lab
    rw [evokedFilename,
      show ("fif-files/subject" : String) = "fif-files/" ++ "subject" from rfl]
    simp only [String.append_assoc]
  · intro lab
    exact replaceSpaces_eq_map lab.data

/-- Claim C5 counterexample: the last signal-modifying step of `run_ica` is
`raw.filter(l_freq=0.1, h_freq=30)`, whose low cutoff is `0.1` Hz rather
than `None`; so it is not a filter that attenuates only frequencies above
30 Hz leaving the low-frequency end unchanged (a pure low-pass would pass
`l_freq=None`). -/
theorem final_ica_filter_not_pure_lowpass :
    ((runIcaSteps labels20).filter signalModifying).getLast? =
      some (Step.filterStep (some (1/10)) (some 30) "fir" "firwin") ∧
    ∀ hf : Option ℚ,
      Step.filterStep (some (1/10)) (some 30) "fir" "firwin" ≠
        Step.filterStep none hf "fir" "firwin" := by
  refine ⟨rfl, ?_⟩
  intro hf hcontra
  simp at hcontra

/-- Claim C5 (amended): after independent-component reconstruction,
`run_ica` applies a final FIR filter with low cutoff 0.1 Hz and high cutoff
30 Hz — a 0.1–30 Hz band-pass, which attenuates frequencies above 30 Hz and
also below 0.1 Hz — as the last signal-modifying step before returning. -/
theorem final_ica_filter_is_bandpass (labels : List String) :
    (runIcaSteps labels).filter signalModifying =
      [Step.setEEGReference "average", Step.icaApply (exclude_idx labels),
       Step.filterStep (some (1/10)) (some 30) "fir" "firwin"] ∧
    ((runIcaSteps labels).filter signalModifying).getLast? =
      some (Step.filterStep (some (1/10)) (some 30) "fir" "firwin") :=
  ⟨rfl, rfl⟩

/-- Claim C7: the signal-transforming steps of `preprocess_subject` are, in
exactly this order and with nothing reordered or omitted: load the
recording, attach the `easycap-M1` standard montage, resample to 250 Hz,
apply a 0.1–100 Hz band-pass FIR filter, apply a 50 Hz notch filter. -/
theorem preprocess_signal_step_order :
    preprocessSteps.filter signalModifying =
      [Step.readRawBids "casinos" "eeg" "eeg",
       Step.setMontage "easycap-M1",
       Step.resample resampleSfreq "auto",
       Step.filterStep (some (1/10)) (some 100) "fir" "firwin",
       Step.notchFilter [50] "fir" "firwin"] ∧
    resampleSfreq = 250 :=
  ⟨rfl, rfl⟩

/-- Claim C8: with the compiled-in constants `tmin = -0.2` s,
`tmax = 0.6` s and the 250 Hz rate fixed in conditioning, the sample count
`round((tmax - tmin) * sample_rate) + 1` of each written Evoked Average is
201. -/
theorem evoked_sample_count :
    nEpochSamples tmin tmax resampleSfreq = 201 := by
  have h : ((tmax - tmin) * resampleSfreq : ℚ) = 200 := by
    norm_num [tmin, tmax, resampleSfreq]
  rw [nEpochSamples, h]
  norm_num

/-- Claim C3: if a sub-condition's event code key `Stimulus/<code>` is
absent from the event-id mapping, its loop body fails with an uncaught
lookup error: no library call is made, the error propagates out, and the
run stops there — no catch, skip, or continuation for that sub-condition. -/
theorem missing_event_code_fatal (L : EEGLib) (raw : L.Raw) (events : L.Events)
    (event_id : List (String × Nat)) (subject_id key event_type : String)
    (fam : Family) (rest : List (Family × String × String))
    (h : lookupEventId event_id ("Stimulus/" ++ key) = none) :
    (condBody L raw events event_id subject_id (fam, key, event_type)).value =
      Except.error ("KeyError: Stimulus/" ++ key) ∧
    (condBody L raw events event_id subject_id (fam, key, event_type)).calls =
      [] ∧
    runConds L raw events event_id subject_id
        ((fam, key, event_type) :: rest) =
      ([], some ("KeyError: Stimulus/" ++ key)) := by
  cases fam <;>
    refine ⟨?_, ?_, ?_⟩ <;>
    simp [condBody, winBody, lossBody, runConds, h]

theorem missing_event_code_fatal_witness :
    lookupEventId [] ("Stimulus/" ++ "S  6") = none ∧
    ((condBody unitLib () () [] "01"
        (Family.win, "S  6", "win (low-task, low-cue)")).value =
      Except.error ("KeyError: Stimulus/" ++ "S  6") ∧
    (condBody unitLib () () [] "01"
        (Family.win, "S  6", "win (low-task, low-cue)")).calls = [] ∧
    runConds unitLib () () [] "01"
        [(Family.win, "S  6", "win (low-task, low-cue)")] =
      ([], some ("KeyError: Stimulus/" ++ "S  6"))) :=
  ⟨rfl, missing_event_code_fatal unitLib () () [] "01" "S  6"
    "win (low-task, low-cue)" Family.win [] rfl⟩

/-- Claim C6: each sub-condition whose event code is present makes exactly
these library calls in order: epoch extraction over −0.2 s to +0.6 s with
baseline `(None, 0)`, a 120 µV peak-to-peak EEG rejection ceiling, preload,
and rejection of windows overlapping bad-data annotation marks; adaptive
threshold estimation with downsample factor 2; re-dropping with that
adaptive threshold; averaging; saving the average. -/
theorem epoching_call_sequence (L : EEGLib) (raw : L.Raw) (events : L.Events)
    (event_id : List (String × Nat)) (subject_id key event_type : String)
    (fam : Family) (code : Nat)
    (h : lookupEventId event_id ("Stimulus/" ++ key) = some code) :
    (condBody L raw events event_id subject_id (fam, key, event_type)).calls =
      [ECall.epochsCall code epochParams, ECall.thresholdCall 2,
       ECall.dropBadCall, ECall.averageCall,
       ECall.saveCall (evokedFilename subject_id event_type) true] ∧
    epochParams.tmin = -(1/5) ∧ epochParams.tmax = 3/5 ∧
    epochParams.baseline = (none, some 0) ∧
    epochParams.rejectEEG = 120/1000000 ∧
    epochParams.preload = true ∧
    epochParams.rejectByAnnot = true := by
  cases fam <;>
    refine ⟨?_, rfl, rfl, rfl, rfl, rfl, rfl⟩ <;>
    simp [condBody, winBody, lossBody, h]

theorem epoching_call_sequence_witness :
    lookupEventId fullEventId ("Stimulus/" ++ "S  6") = some 6 ∧
    ((condBody unitLib () () fullEventId "01"
        (Family.win, "S  6", "win (low-task, low-cue)")).calls =
      [ECall.epochsCall 6 epochParams, ECall.thresholdCall 2,
       ECall.dropBadCall, ECall.averageCall,
       ECall.saveCall (evokedFilename "01" "win (low-task, low-cue)") true] ∧
    epochParams.tmin = -(1/5) ∧ epochParams.tmax = 3/5 ∧
    epochParams.baseline = (none, some 0) ∧
    epochParams.rejectEEG = 120/1000000 ∧
    epochParams.preload = true ∧
    epochParams.rejectByAnnot = true) :=
  ⟨rfl, epoching_call_sequence unitLib () () fullEventId "01" "S  6"
    "win (low-task, low-cue)" Family.win 6 rfl⟩

/-- Claim C10: the win-family and loss-family loop bodies of
`create_evokeds` are the same per-condition procedure: on every input and
`(key, label)` pair they produce the same outcome (evoked, filename, or
lookup error) and the same library-call sequence; their printed diagnostics
differ only in the family word. -/
theorem win_loss_bodies_equal (L : EEGLib) (raw : L.Raw) (events : L.Events)
    (event_id : List (String × Nat)) (subject_id key event_type : String) :
    (lossBody L raw events event_id subject_id key event_type).value =
      (winBody L raw events event_id subject_id key event_type).value ∧
    (lossBody L raw events event_id subject_id key event_type).calls =
      (winBody L raw events event_id subject_id key event_type).calls ∧
    ∃ mkMsg : String → List String,
      (winBody L raw events event_id subject_id key event_type).log =
        mkMsg "Win" ∧
      (lossBody L raw events event_id subject_id key event_type).log =
        mkMsg "Loss" := by
  rcases hv : lookupEventId event_id ("Stimulus/" ++ key) with _ | code
  · exact ⟨by simp [winBody, lossBody, hv], by simp [winBody, lossBody, hv],
      fun _ => [], by simp [winBody, hv], by simp [lossBody, hv]⟩
  · refine ⟨by simp [winBody, lossBody, hv], by simp [winBody, lossBody, hv],
      fun fam => [fam ++ " epochs rejection threshold for " ++ subject_id
        ++ " is " ++ L.showThresh (L.getRejectionThreshold
          (L.mkEpochs raw events code epochParams) 2)], ?_, ?_⟩
    · simp only [winBody, hv]
      rfl
    · simp only [lossBody, hv]
      rfl

theorem create_evokeds_eq (L : EEGLib) (raw : L.Raw) (subject_id : String) :
    create_evokeds L raw subject_id =
      runConds L raw (L.eventsFromAnnot raw).1 (L.eventsFromAnnot raw).2
        subject_id allConds := rfl

theorem runConds_all_or_stops (L : EEGLib) (raw : L.Raw) (events : L.Events)
    (event_id : List (String × Nat)) (subject_id : String)
    (cs : List (Family × String × String)) :
    ((runConds L raw events event_id subject_id cs).2 = none ∧
      (∀ c ∈ cs, condOk L raw events event_id subject_id c = true) ∧
      (runConds L raw events event_id subject_id cs).1 =
        cs.filterMap (condFile L raw events event_id subject_id) ∧
      (runConds L raw events event_id subject_id cs).1.length = cs.length)
    ∨ (∃ pre c post, cs = pre ++ c :: post ∧
        (∀ q ∈ pre, condOk L raw events event_id subject_id q = true) ∧
        condOk L raw events event_id subject_id c = false ∧
        (runConds L raw events event_id subject_id cs).1 =
          pre.filterMap (condFile L raw events event_id subject_id) ∧
        ((runConds L raw events event_id subject_id cs).2).isSome = true) := by
  induction cs with
  | nil => left; exact ⟨rfl, by simp, rfl, rfl⟩
  | cons c rest ih =>
    rcases hv : (condBody L raw events event_id subject_id c).value with
      e | ⟨ev, fname⟩
    · right
      refine ⟨[], c, rest, rfl, by simp, ?_, ?_, ?_⟩
      · simp [condOk, condFile, hv]
      · simp [runConds, hv]
      · simp [runConds, hv]
    · have hok : condOk L raw events event_id subject_id c = true := by
        simp [condOk, condFile, hv]
      have hfile : condFile L raw events event_id subject_id c =
          some (fname, ev) := by
        simp [condFile, hv]
      rcases ih with ⟨h2, hall, h1, hlen⟩ | ⟨pre, c', post, hcs, hpre, hc', h1, h2⟩
      · left
        refine ⟨?_, ?_, ?_, ?_⟩
        · simp [runConds, hv, h2]
        · intro q hq
          rcases List.mem_cons.mp hq with rfl | hq
          · exact hok
          · exact hall q hq
        · simp [runConds, hv, h1, List.filterMap_cons, hfile]
        · simp [runConds, hv, hlen]
      · right
        refine ⟨c :: pre, c', post, ?_, ?_, hc', ?_, ?_⟩
        · rw [hcs]; rfl
        · intro q hq
          rcases List.mem_cons.mp hq with rfl | hq
          · exact hok
          · exact hpre q hq
        · simp [runConds, hv, h1, List.filterMap_cons, hfile]
        · simp [runConds, hv, h2]

/-- Claim C4: a run of `create_evokeds` either succeeds on all 8
sub-conditions and writes all 8 files, or terminates at the first failing
sub-condition: the files on disk are exactly those of the sub-conditions
processed before the failure point (no rollback), and no file of any
sub-condition after it is produced. -/
theorem create_evokeds_all_or_prefix (L : EEGLib) (raw : L.Raw)
    (subject_id : String) :
    ((create_evokeds L raw subject_id).2 = none ∧
      (create_evokeds L raw subject_id).1.length = 8 ∧
      (create_evokeds L raw subject_id).1 =
        allConds.filterMap (condFile L raw (L.eventsFromAnnot raw).1
          (L.eventsFromAnnot raw).2 subject_id))
    ∨ (∃ pre c post, allConds = pre ++ c :: post ∧
        (∀ q ∈ pre, condOk L raw (L.eventsFromAnnot raw).1
          (L.eventsFromAnnot raw).2 subject_id q = true) ∧
        condOk L raw (L.eventsFromAnnot raw).1 (L.eventsFromAnnot raw).2
          subject_id c = false ∧
        (create_evokeds L raw subject_id).1 =
          pre.filterMap (condFile L raw (L.eventsFromAnnot raw).1
            (L.eventsFromAnnot raw).2 subject_id) ∧
        ((create_evokeds L raw subject_id).2).isSome = true) := by
  rcases runConds_all_or_stops L raw (L.eventsFromAnnot raw).1
      (L.eventsFromAnnot raw).2 subject_id allConds with
    ⟨h2, _, h1, hlen⟩ | h
  · left
    exact ⟨h2, hlen.trans rfl, h1⟩
  · right
    exact h

theorem runConds_of_all_ok (L : EEGLib) (raw : L.Raw) (events : L.Events)
    (event_id : List (String × Nat)) (subject_id : String)
    (cs : List (Family × String × String))
    (h : ∀ c ∈ cs, condOk L raw events event_id subject_id c = true) :
    runConds L raw events event_id subject_id cs =
      (cs.filterMap (condFile L raw events event_id subject_id), none) := by
  induction cs with
  | nil => rfl
  | cons c rest ih =>
    have hc := h c (List.mem_cons_self c rest)
    rcases hv : (condBody L raw events event_id subject_id c).value with
      e | ⟨ev, fname⟩
    · rw [condOk] at hc
      simp [condFile, hv] at hc
    · have hrest := ih (fun q hq => h q (List.mem_cons_of_mem c hq))
      simp [runConds, hv, hrest, List.filterMap_cons, condFile]

theorem writeAll_perm {α : Type} (l₁ l₂ : List (String × α)) (hp : l₁.Perm l₂) :
    l₁.Pairwise (fun a b => a.1 ≠ b.1) →
    ∀ σ : String → Option α, writeAll σ l₁ = writeAll σ l₂ := by
  induction hp with
  | nil => intro _ _; rfl
  | cons x hp ih =>
    intro hd σ
    rw [List.pairwise_cons] at hd
    simp only [writeAll, List.foldl_cons]
    exact ih hd.2 _
  | swap x y l =>
    intro hd σ
    rw [List.pairwise_cons] at hd
    have hyx : y.1 ≠ x.1 := hd.1 x (List.mem_cons_self x l)
    simp only [writeAll, List.foldl_cons]
    rw [Function.update_comm hyx]
  | trans hp₁ hp₂ ih₁ ih₂ =>
    intro hd σ
    have hd₂ := (hp₁.pairwise_iff (fun hab => Ne.symm hab)).mp hd
    exact (ih₁ hd σ).trans (ih₂ hd₂ σ)

theorem pairwise_fst_filterMap {β γ : Type}
    (g : γ → String) (F : γ → Option (String × β)) (cs : List γ)
    (hF : ∀ c ∈ cs, ∀ p, F c = some p → p.1 = g c)
    (hg : cs.Pairwise (fun a b => g a ≠ g b)) :
    (cs.filterMap F).Pairwise (fun a b => a.1 ≠ b.1) := by
  induction cs with
  | nil => simp
  | cons c rest ih =>
    rw [List.pairwise_cons] at hg
    have hrest := ih (fun q hq => hF q (List.mem_cons_of_mem c hq)) hg.2
    rcases hFc : F c with _ | p
    · simpa [List.filterMap_cons, hFc] using hrest
    · rw [List.filterMap_cons, hFc]
      refine List.Pairwise.cons ?_ hrest
      intro q hq
      rcases List.mem_filterMap.mp hq with ⟨c', hc', hFc'⟩
      have h1 : p.1 = g c := hF c (List.mem_cons_self c rest) p hFc
      have h2 : q.1 = g c' := hF c' (List.mem_cons_of_mem c hc') q hFc'
      rw [h1, h2]
      exact hg.1 c' hc'

theorem sanitizeLabel_eq_of_filename_eq (subject_id a b : String)
    (h : evokedFilename subject_id a = evokedFilename subject_id b) :
    sanitizeLabel a = sanitizeLabel b := by
  have hd := congrArg String.data h
  simp only [evokedFilename, String.data_append] at hd
  exact String.ext (List.append_cancel_left (List.append_cancel_right hd))

theorem allConds_filenames_pairwise (subject_id : String) :
    allConds.Pairwise (fun a b =>
      evokedFilename subject_id a.2.2 ≠ evokedFilename subject_id b.2.2) := by
  have hsan : allConds.Pairwise (fun a b =>
      sanitizeLabel a.2.2 ≠ sanitizeLabel b.2.2) := by decide
  refine hsan.imp ?_
  intro a b hab heq
  exact hab (sanitizeLabel_eq_of_filename_eq subject_id a.2.2 b.2.2 heq)

theorem condFile_fst (L : EEGLib) (raw : L.Raw) (events : L.Events)
    (event_id : List (String × Nat)) (subject_id : String)
    (c : Family × String × String) (p : String × L.Evoked)
    (h : condFile L raw events event_id subject_id c = some p) :
    p.1 = evokedFilename subject_id c.2.2 := by
  obtain ⟨fam, key, lab⟩ := c
  cases fam <;>
    rcases hv : lookupEventId event_id ("Stimulus/" ++ key) with _ | code <;>
    simp [condFile, condBody, winBody, lossBody, hv] at h <;>
    simp [← h]

/-- Claim C9: the 8 sub-conditions of `create_evokeds` are
order-independent: each sub-condition's body reads only the shared cleaned
signal, its events and its event-id map (all passed unchanged to every
body), so for every permutation of the sub-conditions in a run where all
succeed, the per-sub-condition written files are the same (a permutation of
the fixed-order file list) and, since each body writes to its own distinct
filename, the final file store equals the fixed-order store. -/
theorem subcondition_order_independence (L : EEGLib) (raw : L.Raw)
    (subject_id : String) (l : List (Family × String × String))
    (hperm : l.Perm allConds)
    (hok : ∀ c ∈ allConds,
      condOk L raw (L.eventsFromAnnot raw).1 (L.eventsFromAnnot raw).2
        subject_id c = true) :
    ((runConds L raw (L.eventsFromAnnot raw).1 (L.eventsFromAnnot raw).2
        subject_id l).1).Perm ((create_evokeds L raw subject_id).1) ∧
    writeAll (fun _ => none)
        (runConds L raw (L.eventsFromAnnot raw).1 (L.eventsFromAnnot raw).2
          subject_id l).1 =
      writeAll (fun _ => none) ((create_evokeds L raw subject_id).1) := by
  have hokl : ∀ c ∈ l,
      condOk L raw (L.eventsFromAnnot raw).1 (L.eventsFromAnnot raw).2
        subject_id c = true :=
    fun c hc => hok c (hperm.mem_iff.mp hc)
  have hrunl := runConds_of_all_ok L raw (L.eventsFromAnnot raw).1
    (L.eventsFromAnnot raw).2 subject_id l hokl
  have hruna := runConds_of_all_ok L raw (L.eventsFromAnnot raw).1
    (L.eventsFromAnnot raw).2 subject_id allConds hok
  have hfm : (l.filterMap (condFile L raw (L.eventsFromAnnot raw).1
      (L.eventsFromAnnot raw).2 subject_id)).Perm
      (allConds.filterMap (condFile L raw (L.eventsFromAnnot raw).1
        (L.eventsFromAnnot raw).2 subject_id)) :=
    hperm.filterMap _
  have hpair : (allConds.filterMap (condFile L raw (L.eventsFromAnnot raw).1
      (L.eventsFromAnnot raw).2 subject_id)).Pairwise
      (fun a b => a.1 ≠ b.1) :=
    pairwise_fst_filterMap (fun c => evokedFilename subject_id c.2.2) _
      allConds
      (fun c _ p hp => condFile_fst L raw (L.eventsFromAnnot raw).1
        (L.eventsFromAnnot raw).2 subject_id c p hp)
      (allConds_filenames_pairwise subject_id)
  rw [create_evokeds_eq, hrunl, hruna]
  exact ⟨hfm, (writeAll_perm _ _ hfm.symm hpair _).symm⟩

theorem subcondition_order_independence_witness :
    (allConds.Perm allConds) ∧
    (∀ c ∈ allConds,
      condOk unitLib () (unitLib.eventsFromAnnot ()).1
        (unitLib.eventsFromAnnot ()).2 "01" c = true) ∧
    (((runConds unitLib () (unitLib.eventsFromAnnot ()).1
        (unitLib.eventsFromAnnot ()).2 "01" allConds).1).Perm
      ((create_evokeds unitLib () "01").1) ∧
    writeAll (fun _ => none)
        (runConds unitLib () (unitLib.eventsFromAnnot ()).1
          (unitLib.eventsFromAnnot ()).2 "01" allConds).1 =
      writeAll (fun _ => none) ((create_evokeds unitLib () "01").1)) :=
  ⟨List.Perm.refl _, by decide,
    subcondition_order_independence unitLib () "01" allConds
      (List.Perm.refl _) (by decide)⟩

end EEGPipe
